import Mathlib

/-!
Shallow embedding of the consumer-side CCV relay logic
(x/ccv/consumer/keeper relay code: OnRecvVSCPacket, QueueSlashPacket,
SendPackets, OnAcknowledgementPacket, IsChannelClosed), together with
the keeper state it manipulates.  Pure functions are translated
directly from the Go source; the keeper store is an explicit state
record threaded through each operation.  External collaborators
(the IBC transport send, ChanCloseInit, the channel lookup) are
oracles passed in as function arguments.  Keeper helpers whose
bodies are not part of the embedded source are modelled from the
specification and marked as such in their doc comments.
-/

namespace CCV

/-- Infraction kinds of a slashing request (stakingtypes.Infraction). -/
inductive Infraction where
  | Unspecified
  | Downtime
  | DoubleSign
deriving DecidableEq

/-- A single validator power update (abci.ValidatorUpdate): the validator
identity (public key) and its new voting power. -/
structure ValidatorUpdate where
  pubKey : String
  power : Int
deriving DecidableEq

/-- ccv.ValidatorSetChangePacketData: a batch of validator updates, the
valset update id, and the slash acknowledgements carried along. -/
structure ValidatorSetChangePacketData where
  validatorUpdates : List ValidatorUpdate
  valsetUpdateId : Nat
  slashAcks : List String
deriving DecidableEq

/-- The type tag of an outbound consumer packet (ccv.ConsumerPacketDataType). -/
inductive ConsumerPacketType where
  | VscMaturedPacket
  | SlashPacket
deriving DecidableEq

/-- ccv.SlashPacketData: the validator to slash, the valset update id and
the infraction kind. -/
structure SlashPacketData where
  validator : String
  valsetUpdateId : Nat
  infraction : Infraction
deriving DecidableEq

/-- The oneof payload of a consumer packet (ccv.ConsumerPacketData data). -/
inductive ConsumerPacketPayload where
  | slashData (d : SlashPacketData)
  | vscMaturedData (valsetUpdateId : Nat)
deriving DecidableEq

/-- ccv.ConsumerPacketData: type tag plus payload.  This is the decoded
form of the bytes that travel over the wire; the codec itself is outside
the embedded source. -/
structure ConsumerPacketData where
  type : ConsumerPacketType
  payload : ConsumerPacketPayload
deriving DecidableEq

/-- A queued consumer packet with its queue index
(ccv.ConsumerPacketDataWithIdx). -/
structure PendingPacket where
  idx : Nat
  type : ConsumerPacketType
  payload : ConsumerPacketPayload
deriving DecidableEq

/-- IBC channel states (channeltypes.State); only CLOSED is inspected by
the embedded code. -/
inductive ChannelState where
  | UNINITIALIZED
  | INIT
  | TRYOPEN
  | OPEN
  | CLOSED
deriving DecidableEq

/-- Modelled from the spec: the SlashRecord state machine
(state in Idle, Sending, WaitingForReply, WaitingForBackoffAfterBounce,
plus the backoffUntil time); the record itself is stored by keeper
helpers whose bodies are not part of the embedded source. -/
inductive SlashRecordState where
  | Idle
  | Sending
  | WaitingForReply
  | WaitingForBackoffAfterBounce
deriving DecidableEq

/-- Modelled from the spec: the stored slash record. -/
structure SlashRecord where
  state : SlashRecordState
  backoffUntil : Nat
deriving DecidableEq

/-- Observability events emitted by the embedded code. -/
inductive Event where
  | channelEstablished (port : String) (channel : String)
  | slashRequest (validator : String) (valsetUpdateId : Nat) (infraction : Infraction)
deriving DecidableEq

/-- The keeper state touched by the embedded code: the bound provider
channel, accumulated pending validator set changes, the height to valset
update id mapping, the outstanding downtime set, the pending packet
queue, the slash record, the block context, and the emitted events. -/
structure KState where
  providerChannel : Option String
  pendingChanges : Option (List ValidatorUpdate)
  heightToValsetUpdateId : List (Nat × Nat)
  outstandingDowntime : List String
  pendingPackets : List PendingPacket
  slashRecord : SlashRecord
  blockHeight : Nat
  blockTime : Nat
  retryPeriod : Nat
  events : List Event
deriving DecidableEq

/-- An IBC packet as seen by the embedded handlers: routing metadata plus
the decoded consumer packet data it carried. -/
structure Packet where
  sourcePort : String
  sourceChannel : String
  destinationPort : String
  destinationChannel : String
  data : ConsumerPacketData
deriving DecidableEq

/-- ccv.ConsumerPortID, the port used by the consumer module. -/
def ConsumerPortID : String := "consumer"

/-- k.GetProviderChannel. -/
def GetProviderChannel (s : KState) : Option String :=
  s.providerChannel

/-- k.SetProviderChannel. -/
def SetProviderChannel (s : KState) (channelID : String) : KState :=
  { s with providerChannel := some channelID }

/-- k.GetPendingChanges. -/
def GetPendingChanges (s : KState) : Option (List ValidatorUpdate) :=
  s.pendingChanges

/-- k.SetPendingChanges. -/
def SetPendingChanges (s : KState) (updates : List ValidatorUpdate) : KState :=
  { s with pendingChanges := some updates }

/-- k.SetHeightValsetUpdateID. -/
def SetHeightValsetUpdateID (s : KState) (height vscId : Nat) : KState :=
  { s with heightToValsetUpdateId := s.heightToValsetUpdateId ++ [(height, vscId)] }

/-- k.OutstandingDowntime: membership of the validator in the stored
outstanding downtime set. -/
def OutstandingDowntime (s : KState) (consAddr : String) : Bool :=
  s.outstandingDowntime.contains consAddr

/-- k.SetOutstandingDowntime: add the validator to the stored set. -/
def SetOutstandingDowntime (s : KState) (consAddr : String) : KState :=
  { s with outstandingDowntime := s.outstandingDowntime ++ [consAddr] }

/-- k.DeleteOutstandingDowntime: remove the validator from the stored set. -/
def DeleteOutstandingDowntime (s : KState) (consAddr : String) : KState :=
  { s with outstandingDowntime :=
      s.outstandingDowntime.filter (fun x => decide (x ≠ consAddr)) }

/-- Modelled from the spec: the pending packet queue carries a monotonic
index for stable identity; appending assigns the next index. -/
def nextPendingPacketIdx (s : KState) : Nat :=
  match s.pendingPackets.getLast? with
  | none => 0
  | some p => p.idx + 1

/-- k.AppendPendingPacket: append a packet at the tail of the queue. -/
def AppendPendingPacket (s : KState) (t : ConsumerPacketType)
    (pl : ConsumerPacketPayload) : KState :=
  { s with pendingPackets :=
      s.pendingPackets ++ [⟨nextPendingPacketIdx s, t, pl⟩] }

/-- k.GetAllPendingPacketsWithIdx. -/
def GetAllPendingPacketsWithIdx (s : KState) : List PendingPacket :=
  s.pendingPackets

/-- k.DeletePendingDataPackets: delete the queue entries with the given
indices. -/
def DeletePendingDataPackets (s : KState) (idxs : List Nat) : KState :=
  { s with pendingPackets :=
      s.pendingPackets.filter (fun p => !(idxs.contains p.idx)) }

/-- k.DeleteHeadOfPendingPackets: drop the head of the queue. -/
def DeleteHeadOfPendingPackets (s : KState) : KState :=
  { s with pendingPackets := s.pendingPackets.drop 1 }

/-- Modelled from the spec: ClearSlashRecord clears the slash record to
Idle, unblocking the sending of pending packets. -/
def ClearSlashRecord (s : KState) : KState :=
  { s with slashRecord := ⟨SlashRecordState.Idle, 0⟩ }

/-- Modelled from the spec: UpdateSlashRecordOnSend transitions the slash
record to WaitingForReply after a slash packet was sent. -/
def UpdateSlashRecordOnSend (s : KState) : KState :=
  { s with slashRecord := ⟨SlashRecordState.WaitingForReply, s.slashRecord.backoffUntil⟩ }

/-- Modelled from the spec: UpdateSlashRecordOnBounce sets the slash
record to WaitingForBackoffAfterBounce with a computed backoffUntil. -/
def UpdateSlashRecordOnBounce (s : KState) : KState :=
  { s with slashRecord :=
      ⟨SlashRecordState.WaitingForBackoffAfterBounce, s.blockTime + s.retryPeriod⟩ }

/-- Modelled from the spec: PacketSendingPermitted permits sending when
the slash record is Idle, forbids it while waiting on a reply to a sent
slash packet, and after a bounce permits it only once the backoff window
has elapsed. -/
def PacketSendingPermitted (s : KState) : Bool :=
  match s.slashRecord.state with
  | SlashRecordState.Idle => true
  | SlashRecordState.Sending => false
  | SlashRecordState.WaitingForReply => false
  | SlashRecordState.WaitingForBackoffAfterBounce =>
      decide (s.slashRecord.backoffUntil ≤ s.blockTime)

/-- Modelled from the spec: Validate on a validator set change batch
rejects malformed batches, namely an empty batch or one with duplicate
validator identities within the same batch. -/
def validBatch (b : ValidatorSetChangePacketData) : Bool :=
  !b.validatorUpdates.isEmpty &&
    decide ((b.validatorUpdates.map (fun u => u.pubKey)).Nodup)

/-- Modelled from the spec: bech32 decoding of a consensus address is
outside the embedded source; a malformed identity is one that fails to
decode, modelled here as the empty string. -/
def getConsAddrFromBech32 (a : String) : Option String :=
  if a = "" then none else some a

/-- One merge step of AccumulateChanges: upsert a single update into the
accumulated list, overwriting the power of an already present identity
and otherwise appending at the tail. -/
def upsertChange (acc : List ValidatorUpdate) (u : ValidatorUpdate) :
    List ValidatorUpdate :=
  if acc.any (fun v => decide (v.pubKey = u.pubKey)) then
    acc.map (fun v => if v.pubKey = u.pubKey then { v with power := u.power } else v)
  else
    acc ++ [u]

/-- Modelled from the spec: ccv.AccumulateChanges merges a batch of new
updates into the accumulated updates with last-write-wins per validator
identity, preserving the relative order of first appearance. -/
def AccumulateChanges (currentChanges newChanges : List ValidatorUpdate) :
    List ValidatorUpdate :=
  newChanges.foldl upsertChange currentChanges

/-- Append an event to the event manager. -/
def emitEvent (s : KState) (e : Event) : KState :=
  { s with events := s.events ++ [e] }

/-- The loop over newChanges.GetSlashAcks() in OnRecvVSCPacket: for every
acknowledgement that decodes to a consensus address, delete the matching
outstanding downtime flag; malformed addresses are logged and skipped. -/
def deleteSlashAcks (acks : List String) (s : KState) : KState :=
  acks.foldl (fun st ack =>
    match getConsAddrFromBech32 ack with
    | none => st
    | some consAddr => DeleteOutstandingDowntime st consAddr) s

/-- The state mutations of OnRecvVSCPacket that follow the channel
binding step: accumulate pending changes, record the height to valset
update id mapping, and clear acknowledged outstanding downtime flags. -/
def recvVSCBody (s : KState) (newChanges : ValidatorSetChangePacketData) : KState :=
  let currentValUpdates := (GetPendingChanges s).getD []
  let pendingChanges := AccumulateChanges currentValUpdates newChanges.validatorUpdates
  let s1 := SetPendingChanges s pendingChanges
  let s2 := SetHeightValsetUpdateID s1 (s1.blockHeight + 1) newChanges.valsetUpdateId
  deleteSlashAcks newChanges.slashAcks s2

/-- Outcome of OnRecvVSCPacket: success with the new state, a validation
error carrying the state at the point of return (unchanged), or the
panic taken on a channel mismatch. -/
inductive RecvResult where
  | ok (s : KState)
  | invalid (s : KState)
  | fatal
deriving DecidableEq

/-- OnRecvVSCPacket: validate the batch, bind or verify the provider
channel (panic on mismatch, establish and emit the event on first use),
then accumulate the changes, record the height mapping and clear
acknowledged downtime flags. -/
def OnRecvVSCPacket (s : KState) (packet : Packet)
    (newChanges : ValidatorSetChangePacketData) : RecvResult :=
  if !validBatch newChanges then
    RecvResult.invalid s
  else
    match GetProviderChannel s with
    | some providerChannel =>
        if providerChannel ≠ packet.destinationChannel then
          RecvResult.fatal
        else
          RecvResult.ok (recvVSCBody s newChanges)
    | none =>
        let s1 := SetProviderChannel s packet.destinationChannel
        let s2 := emitEvent s1
          (Event.channelEstablished packet.destinationPort packet.destinationChannel)
        RecvResult.ok (recvVSCBody s2 newChanges)

/-- QueueSlashPacket: skip if an outstanding downtime request is already
set for the validator; otherwise set the outstanding downtime flag for
downtime infractions, append a slash packet to the pending queue and
emit the slash request event. -/
def QueueSlashPacket (s : KState) (validatorAddress : String)
    (valsetUpdateID : Nat) (infraction : Infraction) : KState :=
  let downtime : Bool := infraction == Infraction.Downtime
  if downtime && OutstandingDowntime s validatorAddress then
    s
  else
    let s1 := if downtime then SetOutstandingDowntime s validatorAddress else s
    let slashPacket : SlashPacketData := ⟨validatorAddress, valsetUpdateID, infraction⟩
    let s2 := AppendPendingPacket s1 ConsumerPacketType.SlashPacket
      (ConsumerPacketPayload.slashData slashPacket)
    emitEvent s2 (Event.slashRequest validatorAddress valsetUpdateID infraction)

/-- Outcome of one external transport send (ccv.SendIBCPacket): success,
the client-not-active error (clienttypes.ErrClientNotActive), or any
other error. -/
inductive SendOutcome where
  | ok
  | errClientNotActive
  | errOther
deriving DecidableEq

/-- The iteration of SendPackets over the pending queue, with the send
oracle standing for ccv.SendIBCPacket.  Returns the state after the
loop, the packets for which the send succeeded, and the indices marked
for deletion. -/
def sendLoop (send : PendingPacket → SendOutcome) (s : KState)
    (ps : List PendingPacket) (sent : List PendingPacket) (idxs : List Nat) :
    KState × List PendingPacket × List Nat :=
  match ps with
  | [] => (s, sent, idxs)
  | p :: rest =>
    if !PacketSendingPermitted s then
      (s, sent, idxs)
    else
      match send p with
      | SendOutcome.errClientNotActive => (s, sent, idxs)
      | SendOutcome.errOther => (s, sent, idxs)
      | SendOutcome.ok =>
        if p.type = ConsumerPacketType.SlashPacket then
          (UpdateSlashRecordOnSend s, sent ++ [p], idxs)
        else
          sendLoop send s rest (sent ++ [p]) (idxs ++ [p.idx])

/-- SendPackets: a no-op when no provider channel is established;
otherwise iterate the pending queue in FIFO order, stop on failure or
after a successful slash packet send, and finally delete the entries
that were successfully sent and marked for deletion.  The second
component reports the packets whose send succeeded. -/
def SendPackets (send : PendingPacket → SendOutcome) (s : KState) :
    KState × List PendingPacket :=
  match GetProviderChannel s with
  | none => (s, [])
  | some _ =>
    let r := sendLoop send s (GetAllPendingPacketsWithIdx s) [] []
    (DeletePendingDataPackets r.1 r.2.2, r.2.1)

/-- channeltypes.Acknowledgement, as observed through GetResult and
GetError: an optional result byte string and an error string that is
empty for result acknowledgements. -/
structure Acknowledgement where
  result : Option (List Nat)
  error : String
deriving DecidableEq

/-- The errors OnAcknowledgementPacket can return. -/
inductive AckError where
  | badResultLength (n : Nat)
  | unrecognizedResult (code : Nat)
  | chanCloseInitFailed (channel : String)
  | noProviderChannel (channel : String)
deriving DecidableEq

/-- Outcome of OnAcknowledgementPacket: the resulting keeper state, the
list of ChanCloseInit calls made (port, channel), and the error if one
was returned. -/
inductive AckResult where
  | ok (s : KState) (closes : List (String × String))
  | err (s : KState) (closes : List (String × String)) (e : AckError)
deriving DecidableEq

/-- The keeper state carried by an acknowledgement outcome. -/
def AckResult.state : AckResult → KState
  | AckResult.ok s _ => s
  | AckResult.err s _ _ => s

/-- The ChanCloseInit calls made while handling the acknowledgement. -/
def AckResult.closes : AckResult → List (String × String)
  | AckResult.ok _ c => c
  | AckResult.err _ c _ => c

/-- Whether the acknowledgement handler returned an error. -/
def AckResult.isErr : AckResult → Bool
  | AckResult.ok _ _ => false
  | AckResult.err _ _ _ => true

/-- Modelled from the spec: the three acknowledgement result codes
(ccv.V1Result, ccv.SlashPacketHandledResult, ccv.SlashPacketBouncedResult)
are distinct single bytes; their concrete values live outside the
embedded source and only their distinctness is relied upon. -/
def V1ResultByte : Nat := 1

/-- Modelled from the spec: the slash packet handled result byte. -/
def SlashPacketHandledResultByte : Nat := 2

/-- Modelled from the spec: the slash packet bounced result byte. -/
def SlashPacketBouncedResultByte : Nat := 3

/-- The error acknowledgement branch of OnAcknowledgementPacket:
initiate ChanCloseInit on the packet source port and channel (error if
that call fails), then error if no provider channel is established, and
when the established channel differs from the packet source channel
also initiate ChanCloseInit on it, returning the outcome of that call.
The closeOk oracle stands for k.ChanCloseInit. -/
def onErrorAck (closeOk : String → String → Bool) (s : KState) (packet : Packet) :
    AckResult :=
  let closes1 : List (String × String) := [(packet.sourcePort, packet.sourceChannel)]
  if !closeOk packet.sourcePort packet.sourceChannel then
    AckResult.err s closes1 (AckError.chanCloseInitFailed packet.sourceChannel)
  else
    match GetProviderChannel s with
    | none => AckResult.err s closes1 (AckError.noProviderChannel packet.sourceChannel)
    | some channelID =>
      if channelID ≠ packet.sourceChannel then
        let closes2 := closes1 ++ [(ConsumerPortID, channelID)]
        if closeOk ConsumerPortID channelID then
          AckResult.ok s closes2
        else
          AckResult.err s closes2 (AckError.chanCloseInitFailed channelID)
      else
        AckResult.ok s closes1

/-- The tail of OnAcknowledgementPacket reached after the result branch
did not return: handle a nonempty error acknowledgement, otherwise
return nil. -/
def afterResultBranch (closeOk : String → String → Bool) (s : KState)
    (packet : Packet) (ack : Acknowledgement) : AckResult :=
  if ack.error ≠ "" then onErrorAck closeOk s packet else AckResult.ok s []

/-- OnAcknowledgementPacket: on a structured result, check the single
byte length, ignore acknowledgements of matured packets, and dispatch on
the result code of a slash packet acknowledgement (clear the record and
drop the queue head when handled, record the bounce, or error on an
unrecognized code); on an error acknowledgement, close the packet
channel and, when established and different, the provider channel. -/
def OnAcknowledgementPacket (closeOk : String → String → Bool) (s : KState)
    (packet : Packet) (ack : Acknowledgement) : AckResult :=
  match ack.result with
  | some res =>
    if res.length ≠ 1 then
      AckResult.err s [] (AckError.badResultLength res.length)
    else if packet.data.type = ConsumerPacketType.VscMaturedPacket then
      AckResult.ok s []
    else if res.headI = V1ResultByte then
      afterResultBranch closeOk (DeleteHeadOfPendingPackets (ClearSlashRecord s)) packet ack
    else if res.headI = SlashPacketHandledResultByte then
      afterResultBranch closeOk (DeleteHeadOfPendingPackets (ClearSlashRecord s)) packet ack
    else if res.headI = SlashPacketBouncedResultByte then
      afterResultBranch closeOk (UpdateSlashRecordOnBounce s) packet ack
    else
      AckResult.err s [] (AckError.unrecognizedResult res.headI)
  | none => afterResultBranch closeOk s packet ack

/-- IsChannelClosed: true when the channel is not found or is in the
CLOSED state; the getChannel oracle stands for channelKeeper.GetChannel
queried at the consumer port. -/
def IsChannelClosed (getChannel : String → String → Option ChannelState)
    (channelID : String) : Bool :=
  match getChannel ConsumerPortID channelID with
  | none => true
  | some st => decide (st = ChannelState.CLOSED)

/-- A fresh keeper state: nothing bound, nothing accumulated, nothing
queued, slash record Idle. -/
def initialKState : KState where
  providerChannel := none
  pendingChanges := none
  heightToValsetUpdateId := []
  outstandingDowntime := []
  pendingPackets := []
  slashRecord := ⟨SlashRecordState.Idle, 0⟩
  blockHeight := 1
  blockTime := 0
  retryPeriod := 10
  events := []

/-- Run OnRecvVSCPacket over a sequence of batches arriving with the
same packet metadata, stopping with none as soon as a call does not
succeed. -/
def ingestAll (s : KState) (packet : Packet) :
    List ValidatorSetChangePacketData → Option KState
  | [] => some s
  | b :: bs =>
    match OnRecvVSCPacket s packet b with
    | RecvResult.ok s1 => ingestAll s1 packet bs
    | RecvResult.invalid _ => none
    | RecvResult.fatal => none

/-- Helper for keysFirst: traverse the list keeping each key the first
time it is met and skipping keys already seen. -/
def keysFirstGo (seen : List String) : List String → List String
  | [] => []
  | k :: ks =>
    if k ∈ seen then keysFirstGo seen ks else k :: keysFirstGo (seen ++ [k]) ks

/-- The keys of a list in order of first appearance, each kept once. -/
def keysFirst (l : List String) : List String := keysFirstGo [] l

/-- The power assigned to an identity by its most recent update in a
flattened sequence of updates, if the identity appears at all. -/
def lastPowerIn (updates : List ValidatorUpdate) (k : String) : Option Int :=
  (updates.reverse.find? (fun u => decide (u.pubKey = k))).map (fun u => u.power)

/-- The accumulated validator set change demanded by the spec for a
flattened sequence of updates: one entry per identity seen, in order of
first appearance, each carrying the power of the most recent update for
that identity. -/
def specAccumulated (updates : List ValidatorUpdate) : List ValidatorUpdate :=
  (keysFirst (updates.map (fun u => u.pubKey))).map
    (fun k => ⟨k, (lastPowerIn updates k).getD 0⟩)

/-- The pure effect of the slash acknowledgement loop on the stored
outstanding downtime list. -/
def deleteAcksList (acks : List String) (l : List String) : List String :=
  acks.foldl (fun cur ack =>
    match getConsAddrFromBech32 ack with
    | none => cur
    | some consAddr => cur.filter (fun x => decide (x ≠ consAddr))) l

/-- A ChanCloseInit oracle that always succeeds. -/
def closeAlwaysOk : String → String → Bool := fun _ _ => true

/-- A sample slash payload used by concrete witnesses. -/
def slashPayload : ConsumerPacketPayload :=
  ConsumerPacketPayload.slashData ⟨"V1", 1, Infraction.Downtime⟩

/-- A packet that carried slash data, sent from the consumer on
channel-0. -/
def pktSlashAck : Packet :=
  ⟨"consumer", "channel-0", "provider", "channel-0",
    ⟨ConsumerPacketType.SlashPacket, slashPayload⟩⟩

/-- A packet that carried matured data, sent from the consumer on
channel-0. -/
def pktMaturedAck : Packet :=
  ⟨"consumer", "channel-0", "provider", "channel-0",
    ⟨ConsumerPacketType.VscMaturedPacket, ConsumerPacketPayload.vscMaturedData 1⟩⟩

/-- An inbound packet from the provider arriving on destination
channel-7. -/
def pktVSC : Packet :=
  ⟨"provider", "channel-3", "consumer", "channel-7",
    ⟨ConsumerPacketType.VscMaturedPacket, ConsumerPacketPayload.vscMaturedData 1⟩⟩

/-- A state whose provider channel is bound to channel-1, which differs
from the source channel of pktSlashAck. -/
def mismatchState : KState := { initialKState with providerChannel := some "channel-1" }

/-- An error acknowledgement. -/
def errAck : Acknowledgement := ⟨none, "invalid slash packet"⟩

/-- The two batches of Scenario A. -/
def scenABatches : List ValidatorSetChangePacketData :=
  [⟨[⟨"V1", 10⟩, ⟨"V2", 20⟩], 1, []⟩, ⟨[⟨"V1", 15⟩], 2, []⟩]

/-- An empty, hence malformed, batch. -/
def emptyBatch : ValidatorSetChangePacketData := ⟨[], 3, []⟩

/-- A batch with a duplicated validator identity, hence malformed. -/
def dupBatch : ValidatorSetChangePacketData := ⟨[⟨"V1", 5⟩, ⟨"V1", 6⟩], 4, []⟩

/-- A state with one slash packet queued and the record waiting on a
reply. -/
def qState : KState :=
  { initialKState with
    providerChannel := some "channel-0",
    pendingPackets := [⟨0, ConsumerPacketType.SlashPacket, slashPayload⟩],
    slashRecord := ⟨SlashRecordState.WaitingForReply, 0⟩ }

/-- A queue with two matured packets and a trailing slash packet, used
by the C8 witness. -/
def flushFailState : KState :=
  { initialKState with
    providerChannel := some "channel-0",
    pendingPackets :=
      [⟨0, ConsumerPacketType.VscMaturedPacket, ConsumerPacketPayload.vscMaturedData 1⟩,
       ⟨1, ConsumerPacketType.VscMaturedPacket, ConsumerPacketPayload.vscMaturedData 2⟩,
       ⟨2, ConsumerPacketType.SlashPacket, slashPayload⟩] }

/-- A transport that delivers the packet with index 0 and fails on every
other packet. -/
def failAfterIdx0 : PendingPacket → SendOutcome :=
  fun p => if p.idx = 0 then SendOutcome.ok else SendOutcome.errOther

theorem deleteSlashAcks_eq (acks : List String) (s : KState) :
    deleteSlashAcks acks s
      = { s with outstandingDowntime := deleteAcksList acks s.outstandingDowntime } := by
  induction acks generalizing s with
  | nil => rfl
  | cons a as ih =>
    have h1 : deleteSlashAcks (a :: as) s
        = deleteSlashAcks as (match getConsAddrFromBech32 a with
            | none => s
            | some consAddr => DeleteOutstandingDowntime s consAddr) := rfl
    have h2 : deleteAcksList (a :: as) s.outstandingDowntime
        = deleteAcksList as (match getConsAddrFromBech32 a with
            | none => s.outstandingDowntime
            | some consAddr =>
                s.outstandingDowntime.filter (fun x => decide (x ≠ consAddr))) := rfl
    rw [h1, h2]
    cases getConsAddrFromBech32 a with
    | none => exact ih s
    | some c => exact ih (DeleteOutstandingDowntime s c)

theorem recvVSCBody_eq (s : KState) (b : ValidatorSetChangePacketData) :
    recvVSCBody s b =
      { s with
        pendingChanges :=
          some (AccumulateChanges ((GetPendingChanges s).getD []) b.validatorUpdates),
        heightToValsetUpdateId :=
          s.heightToValsetUpdateId ++ [(s.blockHeight + 1, b.valsetUpdateId)],
        outstandingDowntime := deleteAcksList b.slashAcks s.outstandingDowntime } := by
  simp [recvVSCBody, deleteSlashAcks_eq, SetPendingChanges, SetHeightValsetUpdateID,
    GetPendingChanges]

theorem onRecv_ok_of_bound (s : KState) (pkt : Packet)
    (b : ValidatorSetChangePacketData) (hb : validBatch b = true)
    (hch : s.providerChannel = some pkt.destinationChannel) :
    OnRecvVSCPacket s pkt b = RecvResult.ok (recvVSCBody s b) := by
  simp [OnRecvVSCPacket, GetProviderChannel, hch, hb]

theorem onRecv_ok_of_unbound (s : KState) (pkt : Packet)
    (b : ValidatorSetChangePacketData) (hb : validBatch b = true)
    (hch : s.providerChannel = none) :
    OnRecvVSCPacket s pkt b
      = RecvResult.ok (recvVSCBody
          (emitEvent (SetProviderChannel s pkt.destinationChannel)
            (Event.channelEstablished pkt.destinationPort pkt.destinationChannel)) b) := by
  simp [OnRecvVSCPacket, GetProviderChannel, hch, hb]

/-- Claim C10: IsChannelClosed returns true not only when the queried
channel exists in the CLOSED state but also whenever the channel is not
found at all; it returns false exactly when the channel exists and is in
a non-CLOSED state. -/
theorem isChannelClosed_true_iff (g : String → String → Option ChannelState)
    (cid : String) :
    (IsChannelClosed g cid = true
        ↔ g ConsumerPortID cid = none ∨ g ConsumerPortID cid = some ChannelState.CLOSED) ∧
    (IsChannelClosed g cid = false
        ↔ ∃ st, g ConsumerPortID cid = some st ∧ st ≠ ChannelState.CLOSED) := by
  cases h : g ConsumerPortID cid with
  | none => simp [IsChannelClosed, h]
  | some st => simp [IsChannelClosed, h]

/-- Witness for C10 at a missing channel and at an open channel. -/
theorem isChannelClosed_true_iff_witness :
    IsChannelClosed (fun _ _ => none) "channel-0" = true ∧
    IsChannelClosed (fun _ _ => some ChannelState.OPEN) "channel-0" = false :=
  ⟨(isChannelClosed_true_iff (fun _ _ => none) "channel-0").1.2 (Or.inl rfl),
   (isChannelClosed_true_iff (fun _ _ => some ChannelState.OPEN) "channel-0").2.2
     ⟨ChannelState.OPEN, rfl, by decide⟩⟩

/-- Claim C9: for every structured success acknowledgement whose decoded
packet type is a matured update, OnAcknowledgementPacket returns ok
without inspecting the result byte at all: an arbitrary one byte result
code is accepted silently, with no state change and no channel close. -/
theorem onAck_matured_ignores_result_code (closeOk : String → String → Bool)
    (s : KState) (packet : Packet) (c : Nat)
    (hp : packet.data.type = ConsumerPacketType.VscMaturedPacket) :
    OnAcknowledgementPacket closeOk s packet ⟨some [c], ""⟩ = AckResult.ok s [] := by
  simp [OnAcknowledgementPacket, hp]

/-- Witness for C9 with the arbitrary result byte 255. -/
theorem onAck_matured_ignores_result_code_witness :
    OnAcknowledgementPacket closeAlwaysOk initialKState pktMaturedAck ⟨some [255], ""⟩
      = AckResult.ok initialKState [] :=
  onAck_matured_ignores_result_code closeAlwaysOk initialKState pktMaturedAck 255 rfl

/-- Claim C7: for every malformed inbound batch (empty, or duplicate
validator identities within the same batch), OnRecvVSCPacket returns a
validation error carrying the input state unchanged: channel binding,
pending changes, the height mapping and the outstanding downtime set are
all untouched. -/
theorem invalid_batch_rejected_without_mutation (s : KState) (packet : Packet)
    (b : ValidatorSetChangePacketData) (hb : validBatch b = false) :
    OnRecvVSCPacket s packet b = RecvResult.invalid s ∧
    (b.validatorUpdates = [] ∨ ¬ (b.validatorUpdates.map (fun u => u.pubKey)).Nodup) := by
  constructor
  · simp [OnRecvVSCPacket, hb]
  · have h := hb
    simp only [validBatch, Bool.and_eq_false_iff, Bool.not_eq_true',
      List.isEmpty_eq_false, decide_eq_false_iff_not] at h
    rcases h with h | h
    · exact Or.inl (by simpa [List.isEmpty_iff] using h)
    · exact Or.inr h

/-- Witness for C7 at an empty batch and at a duplicated batch. -/
theorem invalid_batch_rejected_without_mutation_witness :
    OnRecvVSCPacket initialKState pktVSC emptyBatch = RecvResult.invalid initialKState ∧
    OnRecvVSCPacket mismatchState pktVSC dupBatch = RecvResult.invalid mismatchState :=
  ⟨(invalid_batch_rejected_without_mutation initialKState pktVSC emptyBatch (by decide)).1,
   (invalid_batch_rejected_without_mutation mismatchState pktVSC dupBatch (by decide)).1⟩

/-- Claim C5: QueueSlashPacket with a downtime infraction for an identity
already in the outstanding downtime set is a complete no-op, so two calls
while the first is outstanding queue exactly one entry; otherwise, for
downtime it records the identity as outstanding, appends a slash entry
and emits the slash request event; non-downtime infractions are never
deduplicated this way. -/
theorem queueSlashPacket_downtime_dedup (s : KState) (v : String)
    (id1 id2 : Nat) (inf : Infraction) :
    (OutstandingDowntime s v = true →
      QueueSlashPacket s v id1 Infraction.Downtime = s) ∧
    (OutstandingDowntime s v = false →
      QueueSlashPacket (QueueSlashPacket s v id1 Infraction.Downtime) v id2 Infraction.Downtime
        = QueueSlashPacket s v id1 Infraction.Downtime ∧
      (QueueSlashPacket s v id1 Infraction.Downtime).pendingPackets.length
        = s.pendingPackets.length + 1 ∧
      (QueueSlashPacket s v id1 Infraction.Downtime).outstandingDowntime
        = s.outstandingDowntime ++ [v] ∧
      (QueueSlashPacket s v id1 Infraction.Downtime).pendingPackets
        = s.pendingPackets ++ [⟨nextPendingPacketIdx s, ConsumerPacketType.SlashPacket,
            ConsumerPacketPayload.slashData ⟨v, id1, Infraction.Downtime⟩⟩] ∧
      (QueueSlashPacket s v id1 Infraction.Downtime).events
        = s.events ++ [Event.slashRequest v id1 Infraction.Downtime]) ∧
    (inf ≠ Infraction.Downtime →
      (QueueSlashPacket s v id1 inf).pendingPackets
        = s.pendingPackets ++ [⟨nextPendingPacketIdx s, ConsumerPacketType.SlashPacket,
            ConsumerPacketPayload.slashData ⟨v, id1, inf⟩⟩] ∧
      (QueueSlashPacket s v id1 inf).outstandingDowntime = s.outstandingDowntime) := by
  have hskip : ∀ (t : KState) (idX : Nat), OutstandingDowntime t v = true →
      QueueSlashPacket t v idX Infraction.Downtime = t := by
    intro t idX h
    simp [QueueSlashPacket, h]
  refine ⟨fun hout => hskip s id1 hout, fun hout => ?_, fun hinf => ?_⟩
  · have h1 : QueueSlashPacket s v id1 Infraction.Downtime
        = emitEvent (AppendPendingPacket (SetOutstandingDowntime s v)
            ConsumerPacketType.SlashPacket
            (ConsumerPacketPayload.slashData ⟨v, id1, Infraction.Downtime⟩))
            (Event.slashRequest v id1 Infraction.Downtime) := by
      simp [QueueSlashPacket, hout]
    have hout1 : OutstandingDowntime (QueueSlashPacket s v id1 Infraction.Downtime) v = true := by
      rw [h1]
      simp [OutstandingDowntime, emitEvent, AppendPendingPacket, SetOutstandingDowntime]
    refine ⟨hskip _ id2 hout1, ?_, ?_, ?_, ?_⟩ <;>
      rw [h1] <;>
      simp [emitEvent, AppendPendingPacket, SetOutstandingDowntime, nextPendingPacketIdx]
  · have hd : (inf == Infraction.Downtime) = false := by
      simp [hinf]
    constructor <;>
      simp [QueueSlashPacket, hd, emitEvent, AppendPendingPacket, nextPendingPacketIdx]

/-- Witness for C5: a second downtime enqueue for V1 is dropped and only
one entry is queued; a double sign enqueue is not deduplicated. -/
theorem queueSlashPacket_downtime_dedup_witness :
    QueueSlashPacket (QueueSlashPacket initialKState "V1" 1 Infraction.Downtime)
        "V1" 2 Infraction.Downtime
      = QueueSlashPacket initialKState "V1" 1 Infraction.Downtime ∧
    (QueueSlashPacket initialKState "V1" 1 Infraction.Downtime).pendingPackets.length
      = initialKState.pendingPackets.length + 1 ∧
    (QueueSlashPacket initialKState "V1" 1 Infraction.DoubleSign).outstandingDowntime
      = initialKState.outstandingDowntime :=
  ⟨((queueSlashPacket_downtime_dedup initialKState "V1" 1 2 Infraction.DoubleSign).2.1
      (by decide)).1,
   ((queueSlashPacket_downtime_dedup initialKState "V1" 1 2 Infraction.DoubleSign).2.1
      (by decide)).2.1,
   ((queueSlashPacket_downtime_dedup initialKState "V1" 1 2 Infraction.DoubleSign).2.2
      (by decide)).2⟩

/-- Claim C4: for a structured success acknowledgement of a slash packet,
OnAcknowledgementPacket dispatches on the single result code: the V1
result or the slash handled result clear the slash record and remove the
head of the pending queue; the bounced result moves the record to the
backoff state and leaves the queue untouched; any other code returns an
error to the caller. -/
theorem onAck_slash_result_dispatch (closeOk : String → String → Bool)
    (s : KState) (packet : Packet) (c : Nat)
    (hp : packet.data.type = ConsumerPacketType.SlashPacket) :
    (c = V1ResultByte ∨ c = SlashPacketHandledResultByte →
      OnAcknowledgementPacket closeOk s packet ⟨some [c], ""⟩
        = AckResult.ok (DeleteHeadOfPendingPackets (ClearSlashRecord s)) [] ∧
      (OnAcknowledgementPacket closeOk s packet ⟨some [c], ""⟩).state.slashRecord.state
        = SlashRecordState.Idle ∧
      (OnAcknowledgementPacket closeOk s packet ⟨some [c], ""⟩).state.pendingPackets
        = s.pendingPackets.drop 1) ∧
    (c = SlashPacketBouncedResultByte →
      OnAcknowledgementPacket closeOk s packet ⟨some [c], ""⟩
        = AckResult.ok (UpdateSlashRecordOnBounce s) [] ∧
      (OnAcknowledgementPacket closeOk s packet ⟨some [c], ""⟩).state.slashRecord.state
        = SlashRecordState.WaitingForBackoffAfterBounce ∧
      (OnAcknowledgementPacket closeOk s packet ⟨some [c], ""⟩).state.pendingPackets
        = s.pendingPackets) ∧
    (c ≠ V1ResultByte → c ≠ SlashPacketHandledResultByte →
      c ≠ SlashPacketBouncedResultByte →
      OnAcknowledgementPacket closeOk s packet ⟨some [c], ""⟩
        = AckResult.err s [] (AckError.unrecognizedResult c)) := by
  refine ⟨fun hc => ?_, fun hc => ?_, fun hc1 hc2 hc3 => ?_⟩
  · rcases hc with hc | hc <;>
      simp [OnAcknowledgementPacket, hp, hc, afterResultBranch, AckResult.state,
        DeleteHeadOfPendingPackets, ClearSlashRecord, V1ResultByte,
        SlashPacketHandledResultByte, SlashPacketBouncedResultByte]
  · simp [OnAcknowledgementPacket, hp, hc, afterResultBranch, AckResult.state,
      UpdateSlashRecordOnBounce, V1ResultByte, SlashPacketHandledResultByte,
      SlashPacketBouncedResultByte]
  · simp [OnAcknowledgementPacket, hp, hc1, hc2, hc3, afterResultBranch]

/-- Witness for C4: at a queued slash packet, code 1 clears and pops,
code 3 bounces, and code 7 errors. -/
theorem onAck_slash_result_dispatch_witness :
    OnAcknowledgementPacket closeAlwaysOk qState pktSlashAck ⟨some [1], ""⟩
      = AckResult.ok (DeleteHeadOfPendingPackets (ClearSlashRecord qState)) [] ∧
    OnAcknowledgementPacket closeAlwaysOk qState pktSlashAck ⟨some [3], ""⟩
      = AckResult.ok (UpdateSlashRecordOnBounce qState) [] ∧
    OnAcknowledgementPacket closeAlwaysOk qState pktSlashAck ⟨some [7], ""⟩
      = AckResult.err qState [] (AckError.unrecognizedResult 7) :=
  ⟨((onAck_slash_result_dispatch closeAlwaysOk qState pktSlashAck 1 rfl).1 (Or.inl rfl)).1,
   ((onAck_slash_result_dispatch closeAlwaysOk qState pktSlashAck 3 rfl).2.1 rfl).1,
   (onAck_slash_result_dispatch closeAlwaysOk qState pktSlashAck 7 rfl).2.2
     (by decide) (by decide) (by decide)⟩

/-- Counterexample to C1 as stated: with a bound provider channel
(channel-1) that differs from the packet source channel (channel-0) and
an error acknowledgement, the code does not surface an inconsistency
error; it initiates close on both channels and returns ok. -/
theorem onAck_error_ack_mismatch_counterexample :
    mismatchState.providerChannel = some "channel-1" ∧
    pktSlashAck.sourceChannel = "channel-0" ∧
    (OnAcknowledgementPacket closeAlwaysOk mismatchState pktSlashAck errAck).isErr = false ∧
    (OnAcknowledgementPacket closeAlwaysOk mismatchState pktSlashAck errAck).closes
      = [("consumer", "channel-0"), ("consumer", "channel-1")] := by
  decide

/-- Claim C1 (amended): on an explicit error acknowledgement the handler
initiates a unilateral close on the packet source side; if no provider
channel is bound it surfaces an explicit inconsistency error; if the
bound channel differs from the packet channel it also initiates close on
the bound channel, returning the outcome of that close rather than an
inconsistency error; if the bound channel matches the packet channel it
returns ok after the single close. -/
theorem onAck_error_ack_behavior (closeOk : String → String → Bool) (s : KState)
    (packet : Packet) (e : String) (he : e ≠ "")
    (hclose : closeOk packet.sourcePort packet.sourceChannel = true) :
    ((packet.sourcePort, packet.sourceChannel) ∈
        (OnAcknowledgementPacket closeOk s packet ⟨none, e⟩).closes) ∧
    (s.providerChannel = none →
      OnAcknowledgementPacket closeOk s packet ⟨none, e⟩
        = AckResult.err s [(packet.sourcePort, packet.sourceChannel)]
            (AckError.noProviderChannel packet.sourceChannel)) ∧
    (∀ cid, s.providerChannel = some cid → cid ≠ packet.sourceChannel →
      ((ConsumerPortID, cid) ∈
          (OnAcknowledgementPacket closeOk s packet ⟨none, e⟩).closes) ∧
      (closeOk ConsumerPortID cid = true →
        OnAcknowledgementPacket closeOk s packet ⟨none, e⟩
          = AckResult.ok s [(packet.sourcePort, packet.sourceChannel),
              (ConsumerPortID, cid)])) ∧
    (∀ cid, s.providerChannel = some cid → cid = packet.sourceChannel →
      OnAcknowledgementPacket closeOk s packet ⟨none, e⟩
        = AckResult.ok s [(packet.sourcePort, packet.sourceChannel)]) := by
  refine ⟨?_, fun hch => ?_, fun cid hch hne => ?_, fun cid hch heq => ?_⟩
  · simp only [OnAcknowledgementPacket, afterResultBranch, onErrorAck, he,
      GetProviderChannel, hclose, if_true, ne_eq, not_false_eq_true, if_false,
      Bool.not_true]
    cases hch : s.providerChannel with
    | none => simp [AckResult.closes]
    | some cid =>
      by_cases hne : cid = packet.sourceChannel <;>
        by_cases hc2 : closeOk ConsumerPortID cid <;>
        simp [hne, hc2, AckResult.closes]
  · simp [OnAcknowledgementPacket, afterResultBranch, onErrorAck, he,
      GetProviderChannel, hclose, hch]
  · constructor
    · simp only [OnAcknowledgementPacket, afterResultBranch, onErrorAck, he,
        GetProviderChannel, hclose, hch, ne_eq, not_false_eq_true, if_false,
        Bool.not_true]
      by_cases hc2 : closeOk ConsumerPortID cid <;> simp [hne, hc2, AckResult.closes]
    · intro hc2
      simp [OnAcknowledgementPacket, afterResultBranch, onErrorAck, he,
        GetProviderChannel, hclose, hch, hne, hc2]
  · simp [OnAcknowledgementPacket, afterResultBranch, onErrorAck, he,
      GetProviderChannel, hclose, hch, heq]

/-- Witness for the amended C1: with nothing bound, an inconsistency
error is returned; with channel-1 bound and a packet on channel-0, both
channels are closed and the handler returns ok. -/
theorem onAck_error_ack_behavior_witness :
    OnAcknowledgementPacket closeAlwaysOk initialKState pktSlashAck errAck
      = AckResult.err initialKState [("consumer", "channel-0")]
          (AckError.noProviderChannel "channel-0") ∧
    OnAcknowledgementPacket closeAlwaysOk mismatchState pktSlashAck errAck
      = AckResult.ok mismatchState [("consumer", "channel-0"), ("consumer", "channel-1")] :=
  ⟨(onAck_error_ack_behavior closeAlwaysOk initialKState pktSlashAck
      "invalid slash packet" (by decide) rfl).2.1 rfl,
   ((onAck_error_ack_behavior closeAlwaysOk mismatchState pktSlashAck
      "invalid slash packet" (by decide) rfl).2.2.1 "channel-1" rfl (by decide)).2 rfl⟩

/-- Claim C6: the first successful ingest binds the inbound packet
destination channel as the provider channel and emits the channel
established event exactly once; a later ingest on a different channel is
the fatal panic; a later ingest on the bound channel proceeds normally
and emits no further establishment event. -/
theorem first_ingest_binds_channel (s : KState) (pkt pkt2 : Packet)
    (b b2 : ValidatorSetChangePacketData)
    (hfresh : s.providerChannel = none)
    (hb : validBatch b = true) (hb2 : validBatch b2 = true) :
    ∃ s1, OnRecvVSCPacket s pkt b = RecvResult.ok s1 ∧
      s1.providerChannel = some pkt.destinationChannel ∧
      s1.events.count (Event.channelEstablished pkt.destinationPort pkt.destinationChannel)
        = s.events.count (Event.channelEstablished pkt.destinationPort pkt.destinationChannel)
            + 1 ∧
      (pkt2.destinationChannel ≠ pkt.destinationChannel →
        OnRecvVSCPacket s1 pkt2 b2 = RecvResult.fatal) ∧
      (pkt2.destinationChannel = pkt.destinationChannel →
        ∃ s2, OnRecvVSCPacket s1 pkt2 b2 = RecvResult.ok s2 ∧
          s2.providerChannel = some pkt.destinationChannel ∧
          s2.events.count
              (Event.channelEstablished pkt.destinationPort pkt.destinationChannel)
            = s1.events.count
                (Event.channelEstablished pkt.destinationPort pkt.destinationChannel)) := by
  rw [onRecv_ok_of_unbound s pkt b hb hfresh]
  set s1 := recvVSCBody (emitEvent (SetProviderChannel s pkt.destinationChannel)
      (Event.channelEstablished pkt.destinationPort pkt.destinationChannel)) b with hs1
  have hch1 : s1.providerChannel = some pkt.destinationChannel := by
    rw [hs1, recvVSCBody_eq]
    simp [emitEvent, SetProviderChannel]
  have hev1 : s1.events
      = s.events ++ [Event.channelEstablished pkt.destinationPort pkt.destinationChannel] := by
    rw [hs1, recvVSCBody_eq]
    simp [emitEvent, SetProviderChannel]
  refine ⟨s1, rfl, hch1, ?_, fun hne => ?_, fun heq => ?_⟩
  · rw [hev1]
    simp
  · have hne2 : pkt.destinationChannel ≠ pkt2.destinationChannel := Ne.symm hne
    simp [OnRecvVSCPacket, GetProviderChannel, hch1, hb2, hne2]
  · rw [onRecv_ok_of_bound s1 pkt2 b2 hb2 (by rw [hch1, heq])]
    refine ⟨recvVSCBody s1 b2, rfl, ?_, ?_⟩
    · rw [recvVSCBody_eq]
      simpa using hch1
    · rw [recvVSCBody_eq]

/-- Witness for C6: from a fresh state, ingesting on channel-7 binds it
and emits one establishment event; a second ingest on channel-8 is
fatal. -/
theorem first_ingest_binds_channel_witness :
    ∃ s1, OnRecvVSCPacket initialKState pktVSC ⟨[⟨"V1", 10⟩], 1, []⟩ = RecvResult.ok s1 ∧
      s1.providerChannel = some "channel-7" ∧
      s1.events.count (Event.channelEstablished "consumer" "channel-7")
        = initialKState.events.count (Event.channelEstablished "consumer" "channel-7") + 1 ∧
      OnRecvVSCPacket s1
        ⟨"provider", "channel-3", "consumer", "channel-8",
          ⟨ConsumerPacketType.VscMaturedPacket, ConsumerPacketPayload.vscMaturedData 1⟩⟩
        ⟨[⟨"V1", 11⟩], 2, []⟩ = RecvResult.fatal := by
  obtain ⟨s1, h1, h2, h3, h4, _⟩ := first_ingest_binds_channel initialKState pktVSC
    ⟨"provider", "channel-3", "consumer", "channel-8",
      ⟨ConsumerPacketType.VscMaturedPacket, ConsumerPacketPayload.vscMaturedData 1⟩⟩
    ⟨[⟨"V1", 10⟩], 1, []⟩ ⟨[⟨"V1", 11⟩], 2, []⟩ rfl (by decide) (by decide)
  exact ⟨s1, h1, h2, h3, h4 (by decide)⟩

theorem deletePending_nil (s : KState) : DeletePendingDataPackets s [] = s := by
  cases s
  simp [DeletePendingDataPackets]

/-- Claim C2: whenever a slash packet sits at the head of the queue and
the slash record is WaitingForReply or WaitingForBackoffAfterBounce, a
SendPackets call sends no entry other than that head slash packet (a
resend after an elapsed backoff), removes nothing from the queue, and
leaves the record in the same blocking set of states, so no later tick
can send a subsequent entry either until the slash packet is resolved. -/
theorem flush_blocked_by_leading_slash (send : PendingPacket → SendOutcome)
    (s : KState) (p : PendingPacket) (rest : List PendingPacket)
    (hq : s.pendingPackets = p :: rest)
    (hp : p.type = ConsumerPacketType.SlashPacket)
    (hst : s.slashRecord.state = SlashRecordState.WaitingForReply ∨
           s.slashRecord.state = SlashRecordState.WaitingForBackoffAfterBounce) :
    (∀ q ∈ (SendPackets send s).2, q = p) ∧
    (SendPackets send s).1.pendingPackets = s.pendingPackets ∧
    ((SendPackets send s).1.slashRecord.state = SlashRecordState.WaitingForReply ∨
     (SendPackets send s).1.slashRecord.state
       = SlashRecordState.WaitingForBackoffAfterBounce) := by
  rcases hchn : s.providerChannel with _ | c
  · constructor
    · intro q hqmem
      simp [SendPackets, GetProviderChannel, hchn] at hqmem
    · constructor
      · simp [SendPackets, GetProviderChannel, hchn]
      · simpa [SendPackets, GetProviderChannel, hchn] using hst
  · have hrun : ∀ (sl : KState × List PendingPacket × List Nat),
        sendLoop send s s.pendingPackets [] [] = sl →
        SendPackets send s = (DeletePendingDataPackets sl.1 sl.2.2, sl.2.1) := by
      intro sl hsl
      simp [SendPackets, GetProviderChannel, hchn, GetAllPendingPacketsWithIdx, hsl]
    rcases hst with hw | hw
    · have hperm : PacketSendingPermitted s = false := by
        simp [PacketSendingPermitted, hw]
      have hsl : sendLoop send s s.pendingPackets [] [] = (s, [], []) := by
        rw [hq]
        simp [sendLoop, hperm]
      rw [hrun _ hsl]
      refine ⟨by simp, by simp [deletePending_nil], Or.inl (by simp [deletePending_nil, hw])⟩
    · by_cases hel : s.slashRecord.backoffUntil ≤ s.blockTime
      · have hperm : PacketSendingPermitted s = true := by
          simp [PacketSendingPermitted, hw, hel]
        rcases hsend : send p with _ | _ | _
        · have hsl : sendLoop send s s.pendingPackets [] []
              = (UpdateSlashRecordOnSend s, [p], []) := by
            rw [hq]
            simp [sendLoop, hperm, hsend, hp]
          rw [hrun _ hsl]
          refine ⟨by simp, by simp [deletePending_nil, UpdateSlashRecordOnSend],
            Or.inl (by simp [deletePending_nil, UpdateSlashRecordOnSend])⟩
        · have hsl : sendLoop send s s.pendingPackets [] [] = (s, [], []) := by
            rw [hq]
            simp [sendLoop, hperm, hsend]
          rw [hrun _ hsl]
          refine ⟨by simp, by simp [deletePending_nil], Or.inr (by simp [deletePending_nil, hw])⟩
        · have hsl : sendLoop send s s.pendingPackets [] [] = (s, [], []) := by
            rw [hq]
            simp [sendLoop, hperm, hsend]
          rw [hrun _ hsl]
          refine ⟨by simp, by simp [deletePending_nil], Or.inr (by simp [deletePending_nil, hw])⟩
      · have hperm : PacketSendingPermitted s = false := by
          simp [PacketSendingPermitted, hw, hel]
        have hsl : sendLoop send s s.pendingPackets [] [] = (s, [], []) := by
          rw [hq]
          simp [sendLoop, hperm]
        rw [hrun _ hsl]
        refine ⟨by simp, by simp [deletePending_nil], Or.inr (by simp [deletePending_nil, hw])⟩

/-- Witness for C2: with a slash packet at the head and the record
waiting on a reply, a flush sends nothing and the queue is unchanged. -/
theorem flush_blocked_by_leading_slash_witness :
    (∀ q ∈ (SendPackets (fun _ => SendOutcome.ok) qState).2,
        q = (⟨0, ConsumerPacketType.SlashPacket, slashPayload⟩ : PendingPacket)) ∧
    (SendPackets (fun _ => SendOutcome.ok) qState).1.pendingPackets
      = qState.pendingPackets ∧
    ((SendPackets (fun _ => SendOutcome.ok) qState).1.slashRecord.state
        = SlashRecordState.WaitingForReply ∨
     (SendPackets (fun _ => SendOutcome.ok) qState).1.slashRecord.state
        = SlashRecordState.WaitingForBackoffAfterBounce) :=
  flush_blocked_by_leading_slash (fun _ => SendOutcome.ok) qState
    ⟨0, ConsumerPacketType.SlashPacket, slashPayload⟩ [] rfl rfl (Or.inl rfl)

theorem sendLoop_leading_ok (send : PendingPacket → SendOutcome) (s : KState)
    (hperm : PacketSendingPermitted s = true) :
    ∀ (pre : List PendingPacket),
      (∀ p ∈ pre, send p = SendOutcome.ok ∧ p.type = ConsumerPacketType.VscMaturedPacket) →
      ∀ (l sent : List PendingPacket) (idxs : List Nat),
        sendLoop send s (pre ++ l) sent idxs
          = sendLoop send s l (sent ++ pre) (idxs ++ pre.map (fun p => p.idx))
  | [], _, l, sent, idxs => by simp
  | q :: qs, hpre, l, sent, idxs => by
    have hq := hpre q (by simp)
    have step : sendLoop send s ((q :: qs) ++ l) sent idxs
        = sendLoop send s (qs ++ l) (sent ++ [q]) (idxs ++ [q.idx]) := by
      simp [sendLoop, hperm, hq.1, hq.2]
    rw [step, sendLoop_leading_ok send s hperm qs
      (fun p hpm => hpre p (by simp [hpm])) l (sent ++ [q]) (idxs ++ [q.idx])]
    simp

theorem sendLoop_fail_head (send : PendingPacket → SendOutcome) (s : KState)
    (f : PendingPacket) (rest sent : List PendingPacket) (idxs : List Nat)
    (hf : send f = SendOutcome.errClientNotActive ∨ send f = SendOutcome.errOther) :
    sendLoop send s (f :: rest) sent idxs = (s, sent, idxs) := by
  rcases hf with hf | hf <;> by_cases hperm : PacketSendingPermitted s <;>
    simp [sendLoop, hperm, hf]

theorem deletePending_leading (s : KState) (pre post : List PendingPacket)
    (hq : s.pendingPackets = pre ++ post)
    (hnodup : (s.pendingPackets.map (fun p => p.idx)).Nodup) :
    (DeletePendingDataPackets s (pre.map (fun p => p.idx))).pendingPackets = post := by
  have hdisj : (pre.map (fun p => p.idx)).Disjoint (post.map (fun p => p.idx)) := by
    rw [hq, List.map_append] at hnodup
    exact (List.nodup_append.1 hnodup).2.2
  have h1 : pre.filter (fun p => !((pre.map (fun q => q.idx)).contains p.idx)) = [] := by
    apply List.filter_eq_nil_iff.2
    intro a ha
    have hmem : a.idx ∈ pre.map (fun q => q.idx) := List.mem_map.2 ⟨a, ha, rfl⟩
    simp [hmem]
  have h2 : post.filter (fun p => !((pre.map (fun q => q.idx)).contains p.idx)) = post := by
    apply List.filter_eq_self.2
    intro a ha
    have hmem : a.idx ∈ post.map (fun q => q.idx) := List.mem_map.2 ⟨a, ha, rfl⟩
    have hnot : a.idx ∉ pre.map (fun q => q.idx) := fun hin => hdisj hin hmem
    simp [hnot]
  simp only [DeletePendingDataPackets, hq, List.filter_append, h1, h2, List.nil_append]

/-- Claim C8: on any delivery failure inside SendPackets, whether the
client is permanently inactive or the failure is transient, iteration
stops immediately: the failed entry and all entries after it stay in the
queue unchanged, the slash record and the outstanding downtime set are
untouched, no error is surfaced by the (error-free) return type, and
only the matured entries successfully sent earlier in the same call are
removed. -/
theorem flush_failure_preserves_queue (send : PendingPacket → SendOutcome)
    (s : KState) (c : String) (pre : List PendingPacket) (f : PendingPacket)
    (rest : List PendingPacket)
    (hch : s.providerChannel = some c)
    (hq : s.pendingPackets = pre ++ f :: rest)
    (hnodup : (s.pendingPackets.map (fun p => p.idx)).Nodup)
    (hperm : PacketSendingPermitted s = true)
    (hpre : ∀ p ∈ pre, send p = SendOutcome.ok ∧ p.type = ConsumerPacketType.VscMaturedPacket)
    (hf : send f = SendOutcome.errClientNotActive ∨ send f = SendOutcome.errOther) :
    (SendPackets send s).1.pendingPackets = f :: rest ∧
    (SendPackets send s).2 = pre ∧
    (SendPackets send s).1.slashRecord = s.slashRecord ∧
    (SendPackets send s).1.outstandingDowntime = s.outstandingDowntime := by
  have hsl : sendLoop send s s.pendingPackets [] []
      = (s, pre, pre.map (fun p => p.idx)) := by
    rw [hq, sendLoop_leading_ok send s hperm pre hpre (f :: rest) [] [],
      sendLoop_fail_head send s f rest _ _ hf]
    simp
  have hrun : SendPackets send s
      = (DeletePendingDataPackets s (pre.map (fun p => p.idx)), pre) := by
    simp [SendPackets, GetProviderChannel, hch, GetAllPendingPacketsWithIdx, hsl]
  rw [hrun]
  exact ⟨deletePending_leading s pre (f :: rest) hq hnodup, rfl, rfl, rfl⟩

/-- Witness for C8: the first matured packet is sent and removed, the
failed packet and everything after it stays queued. -/
theorem flush_failure_preserves_queue_witness :
    (SendPackets failAfterIdx0 flushFailState).1.pendingPackets
      = [⟨1, ConsumerPacketType.VscMaturedPacket, ConsumerPacketPayload.vscMaturedData 2⟩,
         ⟨2, ConsumerPacketType.SlashPacket, slashPayload⟩] ∧
    (SendPackets failAfterIdx0 flushFailState).2
      = [⟨0, ConsumerPacketType.VscMaturedPacket, ConsumerPacketPayload.vscMaturedData 1⟩] ∧
    (SendPackets failAfterIdx0 flushFailState).1.slashRecord
      = flushFailState.slashRecord ∧
    (SendPackets failAfterIdx0 flushFailState).1.outstandingDowntime
      = flushFailState.outstandingDowntime :=
  flush_failure_preserves_queue failAfterIdx0 flushFailState "channel-0"
    [⟨0, ConsumerPacketType.VscMaturedPacket, ConsumerPacketPayload.vscMaturedData 1⟩]
    ⟨1, ConsumerPacketType.VscMaturedPacket, ConsumerPacketPayload.vscMaturedData 2⟩
    [⟨2, ConsumerPacketType.SlashPacket, slashPayload⟩]
    rfl rfl (by decide) rfl (by decide) (Or.inr (by decide))

theorem mem_keysFirstGo (a : String) :
    ∀ (l seen : List String), a ∈ keysFirstGo seen l ↔ a ∈ l ∧ a ∉ seen
  | [], seen => by simp [keysFirstGo]
  | k :: ks, seen => by
    by_cases hk : k ∈ seen
    · rw [keysFirstGo, if_pos hk, mem_keysFirstGo a ks seen]
      simp only [List.mem_cons]
      constructor
      · rintro ⟨h1, h2⟩
        exact ⟨Or.inr h1, h2⟩
      · rintro ⟨h1, h2⟩
        rcases h1 with rfl | h1
        · exact absurd hk h2
        · exact ⟨h1, h2⟩
    · rw [keysFirstGo, if_neg hk]
      simp only [List.mem_cons]
      rw [mem_keysFirstGo a ks (seen ++ [k])]
      simp only [List.mem_append, List.mem_singleton]
      constructor
      · rintro (rfl | ⟨h1, h2⟩)
        · exact ⟨Or.inl rfl, hk⟩
        · exact ⟨Or.inr h1, fun ha => h2 (Or.inl ha)⟩
      · rintro ⟨h1, h2⟩
        rcases h1 with rfl | h1
        · exact Or.inl rfl
        · by_cases hak : a = k
          · exact Or.inl hak
          · exact Or.inr ⟨h1, fun hc => hc.elim h2 hak⟩

theorem mem_keysFirst (a : String) (l : List String) : a ∈ keysFirst l ↔ a ∈ l := by
  rw [keysFirst, mem_keysFirstGo]
  simp

theorem keysFirstGo_nodup : ∀ (l seen : List String), (keysFirstGo seen l).Nodup
  | [], seen => by simp [keysFirstGo]
  | k :: ks, seen => by
    by_cases hk : k ∈ seen
    · rw [keysFirstGo, if_pos hk]
      exact keysFirstGo_nodup ks seen
    · rw [keysFirstGo, if_neg hk]
      refine List.nodup_cons.2 ⟨?_, keysFirstGo_nodup ks (seen ++ [k])⟩
      rw [mem_keysFirstGo]
      rintro ⟨_, h2⟩
      exact h2 (by simp)

theorem keysFirst_nodup (l : List String) : (keysFirst l).Nodup :=
  keysFirstGo_nodup l []

theorem keysFirstGo_append (k : String) :
    ∀ (l seen : List String),
      keysFirstGo seen (l ++ [k])
        = keysFirstGo seen l ++ (if k ∈ seen ++ l then [] else [k])
  | [], seen => by
    by_cases hk : k ∈ seen <;> simp [keysFirstGo, hk]
  | x :: xs, seen => by
    by_cases hx : x ∈ seen
    · rw [List.cons_append, keysFirstGo, if_pos hx, keysFirstGo_append k xs seen,
        keysFirstGo, if_pos hx]
      have hiff : (k ∈ seen ++ xs) ↔ (k ∈ seen ++ x :: xs) := by
        simp only [List.mem_append, List.mem_cons]
        constructor
        · rintro (h | h)
          · exact Or.inl h
          · exact Or.inr (Or.inr h)
        · rintro (h | rfl | h)
          · exact Or.inl h
          · exact Or.inl hx
          · exact Or.inr h
      exact congrArg _ (if_congr hiff rfl rfl)
    · rw [List.cons_append, keysFirstGo, if_neg hx, keysFirstGo_append k xs (seen ++ [x]),
        keysFirstGo, if_neg hx, List.cons_append, List.append_cons seen x xs]

theorem keysFirst_append (k : String) (l : List String) :
    keysFirst (l ++ [k]) = keysFirst l ++ (if k ∈ l then [] else [k]) := by
  rw [keysFirst, keysFirstGo_append k l [], keysFirst]
  simp

theorem lastPowerIn_append (l : List ValidatorUpdate) (u : ValidatorUpdate) (k : String) :
    lastPowerIn (l ++ [u]) k = if u.pubKey = k then some u.power else lastPowerIn l k := by
  unfold lastPowerIn
  rw [List.reverse_append]
  by_cases h : u.pubKey = k
  · simp [h]
  · simp [h]

theorem lastPowerIn_isSome (l : List ValidatorUpdate) (k : String)
    (h : k ∈ l.map (fun u => u.pubKey)) : ∃ p, lastPowerIn l k = some p := by
  obtain ⟨u, hu, he⟩ := List.mem_map.1 h
  have hs : (l.reverse.find? (fun w => decide (w.pubKey = k))).isSome := by
    rw [List.find?_isSome]
    exact ⟨u, List.mem_reverse.2 hu, by simp [he]⟩
  obtain ⟨v, hv⟩ := Option.isSome_iff_exists.1 hs
  exact ⟨v.power, by simp [lastPowerIn, hv]⟩

theorem specAccumulated_map_pubKey (l : List ValidatorUpdate) :
    (specAccumulated l).map (fun u => u.pubKey)
      = keysFirst (l.map (fun u => u.pubKey)) := by
  have hcomp : ((fun u : ValidatorUpdate => u.pubKey)
      ∘ fun k => (⟨k, (lastPowerIn l k).getD 0⟩ : ValidatorUpdate)) = id := rfl
  rw [specAccumulated, List.map_map, hcomp, List.map_id]

theorem specAccumulated_append (l : List ValidatorUpdate) (u : ValidatorUpdate) :
    specAccumulated (l ++ [u]) = upsertChange (specAccumulated l) u := by
  rcases u with ⟨uk, up⟩
  have hkeys : (l ++ [(⟨uk, up⟩ : ValidatorUpdate)]).map (fun v => v.pubKey)
      = l.map (fun v => v.pubKey) ++ [uk] := by simp
  by_cases hmem : uk ∈ l.map (fun v => v.pubKey)
  · have hany : (specAccumulated l).any
        (fun v => decide (v.pubKey = (⟨uk, up⟩ : ValidatorUpdate).pubKey)) = true := by
      rw [List.any_eq_true]
      have hin : uk ∈ (specAccumulated l).map (fun v => v.pubKey) := by
        rw [specAccumulated_map_pubKey, mem_keysFirst]
        exact hmem
      obtain ⟨v, hv, he⟩ := List.mem_map.1 hin
      exact ⟨v, hv, by simp [he]⟩
    have hrhs : upsertChange (specAccumulated l) ⟨uk, up⟩
        = (specAccumulated l).map
            (fun v => if v.pubKey = uk then { v with power := up } else v) := by
      rw [upsertChange, if_pos hany]
    rw [hrhs, specAccumulated, hkeys, keysFirst_append, if_pos hmem, List.append_nil,
      specAccumulated, List.map_map]
    apply List.map_congr_left
    intro k hk
    simp only [Function.comp_apply]
    rw [lastPowerIn_append]
    by_cases hku : uk = k
    · subst hku
      simp
    · have hku2 : k ≠ uk := Ne.symm hku
      simp [hku, hku2]
  · have hany : (specAccumulated l).any
        (fun v => decide (v.pubKey = (⟨uk, up⟩ : ValidatorUpdate).pubKey)) = false := by
      rw [List.any_eq_false]
      intro v hv
      have hvk : v.pubKey ∈ (specAccumulated l).map (fun w => w.pubKey) :=
        List.mem_map.2 ⟨v, hv, rfl⟩
      rw [specAccumulated_map_pubKey, mem_keysFirst] at hvk
      simp only [decide_eq_true_eq]
      intro he
      exact hmem ((show v.pubKey = uk from he) ▸ hvk)
    have hrhs : upsertChange (specAccumulated l) ⟨uk, up⟩
        = specAccumulated l ++ [⟨uk, up⟩] := by
      rw [upsertChange, if_neg (by rw [hany]; exact Bool.false_ne_true)]
    rw [hrhs, specAccumulated, hkeys, keysFirst_append, if_neg hmem, specAccumulated,
      List.map_append]
    congr 1
    · apply List.map_congr_left
      intro k hk
      have hk2 : k ∈ l.map (fun v => v.pubKey) := (mem_keysFirst _ _).1 hk
      have hku : (⟨uk, up⟩ : ValidatorUpdate).pubKey ≠ k := by
        intro he
        exact hmem ((show uk = k from he) ▸ hk2)
      rw [lastPowerIn_append, if_neg hku]
    · simp [lastPowerIn_append]

theorem foldl_upsert_eq_spec (all : List ValidatorUpdate) :
    List.foldl upsertChange [] all = specAccumulated all := by
  induction all using List.reverseRecOn with
  | nil => rfl
  | append_singleton l u ih =>
    rw [List.foldl_append, ih, specAccumulated_append]
    rfl

theorem foldl_accumulate_flatten (batches : List (List ValidatorUpdate))
    (init : List ValidatorUpdate) :
    List.foldl AccumulateChanges init batches
      = List.foldl upsertChange init batches.flatten := by
  rw [List.foldl_flatten]
  rfl

theorem onRecv_pending_step (s : KState) (pkt : Packet)
    (b : ValidatorSetChangePacketData) (hb : validBatch b = true)
    (hch : s.providerChannel = none ∨ s.providerChannel = some pkt.destinationChannel) :
    ∃ s1, OnRecvVSCPacket s pkt b = RecvResult.ok s1 ∧
      s1.providerChannel = some pkt.destinationChannel ∧
      s1.pendingChanges
        = some (AccumulateChanges ((GetPendingChanges s).getD []) b.validatorUpdates) := by
  rcases hch with hch | hch
  · rw [onRecv_ok_of_unbound s pkt b hb hch]
    refine ⟨_, rfl, ?_, ?_⟩ <;> rw [recvVSCBody_eq] <;>
      simp [emitEvent, SetProviderChannel, GetPendingChanges]
  · rw [onRecv_ok_of_bound s pkt b hb hch]
    refine ⟨_, rfl, ?_, ?_⟩
    · rw [recvVSCBody_eq]
      simpa using hch
    · rw [recvVSCBody_eq]

theorem ingestAll_pending (pkt : Packet) :
    ∀ (batches : List ValidatorSetChangePacketData) (s : KState),
      (∀ b ∈ batches, validBatch b = true) →
      (s.providerChannel = none ∨ s.providerChannel = some pkt.destinationChannel) →
      ∃ s1, ingestAll s pkt batches = some s1 ∧
        (GetPendingChanges s1).getD []
          = List.foldl AccumulateChanges ((GetPendingChanges s).getD [])
              (batches.map (fun b => b.validatorUpdates))
  | [], s, _, _ => ⟨s, rfl, by simp⟩
  | b :: bs, s, hv, hch => by
    obtain ⟨s1, h1, hch1, hpend1⟩ := onRecv_pending_step s pkt b (hv b (by simp)) hch
    obtain ⟨s2, h2, hpend2⟩ :=
      ingestAll_pending pkt bs s1 (fun x hx => hv x (by simp [hx])) (Or.inr hch1)
    refine ⟨s2, ?_, ?_⟩
    · simp [ingestAll, h1, h2]
    · rw [hpend2, List.map_cons, List.foldl_cons]
      have hp : (GetPendingChanges s1).getD []
          = AccumulateChanges ((GetPendingChanges s).getD []) b.validatorUpdates := by
        simp [GetPendingChanges, hpend1]
      rw [hp]

theorem spec_power_of_mem (l : List ValidatorUpdate) (u : ValidatorUpdate)
    (hu : u ∈ specAccumulated l) : lastPowerIn l u.pubKey = some u.power := by
  unfold specAccumulated at hu
  obtain ⟨k, hk, he⟩ := List.mem_map.1 hu
  have hkl : k ∈ l.map (fun v => v.pubKey) := (mem_keysFirst _ _).1 hk
  obtain ⟨p, hp⟩ := lastPowerIn_isSome l k hkl
  rw [← he]
  simp [hp]

/-- Claim C3: over any sequence of successful ingest calls, the
accumulated pending validator set change equals the spec accumulation of
the flattened batches: exactly one entry per identity seen (the mapped
keys are the nodup first-appearance keys) and each entry carries the
power of the most recent update for its identity. -/
theorem ingest_accumulates_last_write_wins (pkt : Packet)
    (batches : List ValidatorSetChangePacketData)
    (hvalid : ∀ b ∈ batches, validBatch b = true) :
    ∃ s1, ingestAll initialKState pkt batches = some s1 ∧
      (GetPendingChanges s1).getD []
        = specAccumulated ((batches.map (fun b => b.validatorUpdates)).flatten) ∧
      ((GetPendingChanges s1).getD []).map (fun u => u.pubKey)
        = keysFirst (((batches.map (fun b => b.validatorUpdates)).flatten).map
            (fun u => u.pubKey)) ∧
      (((GetPendingChanges s1).getD []).map (fun u => u.pubKey)).Nodup ∧
      ∀ u ∈ (GetPendingChanges s1).getD [],
        lastPowerIn ((batches.map (fun b => b.validatorUpdates)).flatten) u.pubKey
          = some u.power := by
  obtain ⟨s1, h1, hpend⟩ :=
    ingestAll_pending pkt batches initialKState hvalid (Or.inl rfl)
  have hpend2 : (GetPendingChanges s1).getD []
      = specAccumulated ((batches.map (fun b => b.validatorUpdates)).flatten) := by
    rw [hpend]
    have hinit : (GetPendingChanges initialKState).getD [] = ([] : List ValidatorUpdate) := rfl
    rw [hinit, foldl_accumulate_flatten, foldl_upsert_eq_spec]
  refine ⟨s1, h1, hpend2, ?_, ?_, ?_⟩
  · rw [hpend2, specAccumulated_map_pubKey]
  · rw [hpend2, specAccumulated_map_pubKey]
    exact keysFirst_nodup _
  · intro u hu
    rw [hpend2] at hu
    exact spec_power_of_mem _ u hu

/-- Witness for C3 at Scenario A: two batches over channel-7 accumulate
to the entries V1 at power 15 and V2 at power 20. -/
theorem ingest_accumulates_last_write_wins_witness :
    (∀ b ∈ scenABatches, validBatch b = true) ∧
    specAccumulated ((scenABatches.map (fun b => b.validatorUpdates)).flatten)
      = [⟨"V1", 15⟩, ⟨"V2", 20⟩] ∧
    (∃ s1, ingestAll initialKState pktVSC scenABatches = some s1 ∧
      (GetPendingChanges s1).getD []
        = specAccumulated ((scenABatches.map (fun b => b.validatorUpdates)).flatten)) :=
  ⟨by decide, by decide,
    (ingest_accumulates_last_write_wins pktVSC scenABatches (by decide)).imp
      (fun _ h => ⟨h.1, h.2.1⟩)⟩

end CCV
